import Mathlib

/-!
Shallow embedding of the ChatDB command-and-document interpretation pipeline:
the type inferencer, the tabular extractors, the natural-language command
interpreter and the response formatter of the server's gemini module.

JavaScript-level behaviour (truthiness, `String(v)` coercion, `Number(v)`
parsing, regular-expression matching with JS backtracking semantics) is
modelled explicitly; machine details that no verified property depends on
(full unicode whitespace classes, floating-point JSON numbers) are noted in
the doc comments of the definitions that elide them.
-/

/-- JavaScript runtime values as they occur in the extraction pipeline. -/
inductive JSVal where
  | null
  | undef
  | str (s : String)
  | num (n : Int)
  | boolean (b : Bool)
deriving DecidableEq, Repr, BEq

/-- JS truthiness: `null`, `undefined`, `0`, `""` and `false` are falsy. -/
def jsFalsy : JSVal → Bool
  | .null => true
  | .undef => true
  | .str s => s == ""
  | .num n => n == 0
  | .boolean b => !b

/-- JS `String(v)` coercion. -/
def jsToString : JSVal → String
  | .null => "null"
  | .undef => "undefined"
  | .str s => s
  | .num n => toString n
  | .boolean b => if b then "true" else "false"

/-- ASCII approximation of the JS `\s` class (space, tab, CR, LF, VT, FF). -/
def isJsWS (c : Char) : Bool :=
  c = ' ' || c = Char.ofNat 9 || c = Char.ofNat 10 || c = Char.ofNat 13 ||
  c = Char.ofNat 11 || c = Char.ofNat 12

/-- Decimal body of a JS number literal: `digits [. digits] [(e|E) [+|-] digits]`,
with at least one digit in the integer or fraction part. -/
def decimalTail (cs : List Char) : Bool :=
  let intPart := cs.takeWhile Char.isDigit
  let rest1 := cs.dropWhile Char.isDigit
  let fracPart :=
    match rest1 with
    | '.' :: r => r.takeWhile Char.isDigit
    | _ => []
  let rest2 :=
    match rest1 with
    | '.' :: r => r.dropWhile Char.isDigit
    | _ => rest1
  if intPart.isEmpty && fracPart.isEmpty then false
  else
    match rest2 with
    | [] => true
    | e :: r =>
      if e = 'e' || e = 'E' then
        let r2 := match r with
          | c :: rr => if c = '+' || c = '-' then rr else c :: rr
          | [] => []
        !r2.isEmpty && r2.all Char.isDigit
      else false

/-- Signed decimal or `Infinity` literal. -/
def decimalWithSign (cs : List Char) : Bool :=
  let body := match cs with
    | c :: r => if c = '+' || c = '-' then r else c :: r
    | [] => []
  if body = ['I', 'n', 'f', 'i', 'n', 'i', 't', 'y'] then true else decimalTail body

def isHexDigitChar (c : Char) : Bool :=
  c.isDigit || (decide ('a' ≤ c) && decide (c ≤ 'f')) || (decide ('A' ≤ c) && decide (c ≤ 'F'))

/-- Does the string convert to a non-NaN number under JS `Number(s)`?
Whitespace is trimmed, the empty string is 0, hex/octal/binary literals and
signed decimals with fraction/exponent and `Infinity` are accepted. -/
def jsNumericStr (s : String) : Bool :=
  let cs := ((s.toList.dropWhile isJsWS).reverse.dropWhile isJsWS).reverse
  match cs with
  | [] => true
  | '0' :: x :: rest =>
    if x = 'x' || x = 'X' then !rest.isEmpty && rest.all isHexDigitChar
    else if x = 'o' || x = 'O' then
      !rest.isEmpty && rest.all (fun c => decide ('0' ≤ c) && decide (c ≤ '7'))
    else if x = 'b' || x = 'B' then !rest.isEmpty && rest.all (fun c => c = '0' || c = '1')
    else decimalWithSign cs
  | _ => decimalWithSign cs

/-- `isNaN(Number(v))` for the values flowing through the pipeline
(`Number(null) = 0`, `Number(undefined) = NaN`, booleans are `0`/`1`). -/
def jsNumberIsNaN : JSVal → Bool
  | .undef => true
  | .str s => !jsNumericStr s
  | _ => false

/-- Modelled JS `Date.parse` validity: accepts ISO-style `YYYY-MM-DD` calendar
dates (month 1..31 bounds as below) and bare decimal integers (which the V8
date parser reads as years/epoch-relative numbers).  Other natural-language
date formats the runtime would also accept are treated as unparsable; no
verified property below depends on those. -/
def jsDateParsesStr (s : String) : Bool :=
  match s.toList with
  | [y1, y2, y3, y4, '-', m1, m2, '-', d1, d2] =>
    [y1, y2, y3, y4, m1, m2, d1, d2].all Char.isDigit &&
    (let m := (m1.toNat - 48) * 10 + (m2.toNat - 48)
     let d := (d1.toNat - 48) * 10 + (d2.toNat - 48)
     decide (1 ≤ m) && decide (m ≤ 12) && decide (1 ≤ d) && decide (d ≤ 31))
  | cs => !cs.isEmpty && cs.all Char.isDigit

/-- `!isNaN(Date.parse(String(v)))`. -/
def jsDateParses (v : JSVal) : Bool := jsDateParsesStr (jsToString v)

/-- The null/undefined/empty-string filter of `inferColumnType`. -/
def nonEmptyOf (values : List JSVal) : List JSVal :=
  values.filter (fun v => !(v == .null) && !(v == .undef) && !(v == .str ""))

/-- `inferColumnType` (source: gemini module, lines 21-32). -/
def inferColumnType (values : List JSVal) : String :=
  let nonEmptyValues := nonEmptyOf values
  if nonEmptyValues.isEmpty then "text"
  else if nonEmptyValues.all (fun v => !jsNumberIsNaN v) then "integer"
  else if nonEmptyValues.all (fun v => jsDateParses v) then "date"
  else "text"

/-- Substring containment, JS `String.prototype.includes`. -/
def strContainsL (hay needle : List Char) : Bool :=
  match hay with
  | [] => needle.isEmpty
  | _ :: t => needle.isPrefixOf hay || strContainsL t needle

def containsSub (hay needle : String) : Bool := strContainsL hay.toList needle.toList

/-- JS `s.trim()` (over the modelled whitespace class). -/
def jsTrimStr (s : String) : String :=
  String.mk (((s.toList.dropWhile isJsWS).reverse.dropWhile isJsWS).reverse)

/-- JS `s.toLowerCase()` (ASCII case mapping). -/
def lowerStr (s : String) : String := String.mk (s.toList.map Char.toLower)

def splitOnCharAux (sep : Char) (cur : List Char) : List Char → List (List Char)
  | [] => [cur.reverse]
  | c :: rest =>
    if c = sep then cur.reverse :: splitOnCharAux sep [] rest
    else splitOnCharAux sep (c :: cur) rest

/-- JS `s.split(sep)` for a one-character separator. -/
def splitStr (sep : Char) (s : String) : List String :=
  (splitOnCharAux sep [] s.toList).map String.mk

/-- Drop one trailing carriage return (for the `/\r?\n/` line split). -/
def stripTrailingCR (s : String) : String :=
  match s.toList.reverse with
  | c :: rest => if c = Char.ofNat 13 then String.mk rest.reverse else s
  | [] => s

/-! ### A small backtracking regular-expression engine

The interpreter's triggers are JavaScript regular expressions.  They are
embedded as abstract syntax trees and run by a backtracking matcher that
enumerates candidate matches in exactly the JS preference order (alternation
left first, greedy quantifiers longest first, lazy quantifiers shortest
first, search from the leftmost start position). -/

inductive RE where
  | eps
  | cls (p : Char → Bool)
  | seq (a b : RE)
  | alt (a b : RE)
  | star (greedy : Bool) (r : RE)
  | opt (greedy : Bool) (r : RE)
  | group (idx : Nat) (r : RE)
  | eol

/-- Capture list: group index paired with captured characters; the most
recent write for an index comes first. -/
abbrev Caps := List (Nat × List Char)

def reSize : RE → Nat
  | .eps => 1
  | .cls _ => 1
  | .seq a b => reSize a + reSize b + 1
  | .alt a b => reSize a + reSize b + 1
  | .star _ r => reSize r + 1
  | .opt _ r => reSize r + 1
  | .group _ r => reSize r + 1
  | .eol => 1

/-- All ways `re` can match a prefix of `s`, in backtracking preference
order, returning the unconsumed suffix and the captures.  Every recursive
call either moves to a strict subterm of the pattern or (for a star
re-entry) to a strictly shorter input — star iterations are required to
consume at least one character, as the JS engine requires of repeated empty
matches — so call depth is below `(s.length + 2) * (reSize re + 1)`, and
with that much fuel the fuel-exhaustion branch is unreachable. -/
def reMatches : Nat → RE → List Char → Caps → List (List Char × Caps)
  | 0, _, _, _ => []
  | fuel + 1, re, s, k =>
    match re with
    | .eps => [(s, k)]
    | .cls p =>
      (match s with
       | [] => []
       | c :: rest => if p c then [(rest, k)] else [])
    | .seq a b => (reMatches fuel a s k).flatMap (fun r => reMatches fuel b r.1 r.2)
    | .alt a b => reMatches fuel a s k ++ reMatches fuel b s k
    | .opt g r =>
      if g then reMatches fuel r s k ++ [(s, k)] else (s, k) :: reMatches fuel r s k
    | .star g r =>
      let body := (reMatches fuel r s k).filter (fun r2 => r2.1.length < s.length)
      let deeper := body.flatMap (fun r2 => reMatches fuel (.star g r) r2.1 r2.2)
      if g then deeper ++ [(s, k)] else (s, k) :: deeper
    | .group i r =>
      (reMatches fuel r s k).map
        (fun r2 => (r2.1, (i, s.take (s.length - r2.1.length)) :: r2.2))
    | .eol => if s.isEmpty then [(s, k)] else []

/-- Sufficient fuel for `reMatches` (see its doc comment). -/
def reFuel (re : RE) (s : List Char) : Nat := (s.length + 2) * (reSize re + 1)

/-- A JS regex literal: whether it is anchored at the start (`^`) and its
body; the body is wrapped in capture group 0 so the whole match is recorded. -/
structure JSRegex where
  anchored : Bool
  re : RE

def mkRx (anchored : Bool) (r : RE) : JSRegex := ⟨anchored, .group 0 r⟩

/-- First (preferred) match of the body at this exact start position. -/
def reMatchAt (r : RE) (s : List Char) : Option Caps :=
  ((reMatches (reFuel r s) r s []).map Prod.snd).head?

/-- JS unanchored search: try start positions left to right. -/
def reSearch (r : RE) : List Char → Option Caps
  | [] => reMatchAt r []
  | c :: rest =>
    match reMatchAt r (c :: rest) with
    | some caps => some caps
    | none => reSearch r rest

/-- `s.match(rx)` (no `g` flag): the capture list of the first match. -/
def jsExec (rx : JSRegex) (s : String) : Option Caps :=
  if rx.anchored then reMatchAt rx.re s.toList else reSearch rx.re s.toList

/-- Capture group `i` of a match result as a string. -/
def cap (caps : Caps) (i : Nat) : Option String :=
  (caps.find? (fun p => p.1 == i)).map (fun p => String.mk p.2)

/-- `rx.test(s)`. -/
def jsTest (rx : JSRegex) (s : String) : Bool := (jsExec rx s).isSome

/-- Does the regex body match the *entire* string (a match starting at
position 0 that consumes every character)? -/
def fullMatches (rx : JSRegex) (s : String) : Bool :=
  (reMatches (reFuel rx.re s.toList) rx.re s.toList []).any (fun r => r.1.isEmpty)

/-! Pattern-building helpers; all source regexes carry the `i` flag, so
literal characters compare case-insensitively. -/

/-- Case-insensitive literal character (patterns are written lower-case). -/
def chr (c : Char) : RE := .cls (fun d => d.toLower == c)

def lit (s : String) : RE := (s.toList.map chr).foldr RE.seq .eps

def alts : List RE → RE
  | [] => .eps
  | [r] => r
  | r :: rest => .alt r (alts rest)

/-- `r+` -/
def rep1 (g : Bool) (r : RE) : RE := .seq r (.star g r)

/-- JS `\s` -/
def wsCls : RE := .cls isJsWS
/-- JS `\w` -/
def isWordChar (c : Char) : Bool :=
  c.isDigit || c = '_' || (decide ('a' ≤ c) && decide (c ≤ 'z')) ||
  (decide ('A' ≤ c) && decide (c ≤ 'Z'))
def wordCls : RE := .cls isWordChar
/-- JS `.` (anything but a line terminator) -/
def dotCls : RE := .cls (fun c => !(c = Char.ofNat 10 || c = Char.ofNat 13))
/-- JS `[\s\S]` -/
def anyCls : RE := .cls (fun _ => true)

def wsPlus : RE := rep1 true wsCls
def wordPlus : RE := rep1 true wordCls

def seqs : List RE → RE
  | [] => .eps
  | [r] => r
  | r :: rest => .seq r (seqs rest)

/-! ### The greeting / small-talk table -/

/-- The apostrophe character (U+0027), used inside pattern and reply text. -/
def apc : Char := Char.ofNat 39
def ap : String := apc.toString

/-- `[\s!.,?]` -/
def punc1 : RE := .cls (fun c => isJsWS c || c = '!' || c = '.' || c = ',' || c = '?')
/-- `[\s?!]` -/
def punc2 : RE := .cls (fun c => isJsWS c || c = '?' || c = '!')

structure GreetingRule where
  pattern : JSRegex
  response : String

/-- `greetingPatterns` (source lines 261-276), transcribed in order.  Note
that the entries for "how are you", "what can you do" and "who are you" have
no `^` anchor in the source. -/
def greetingPatterns : List GreetingRule := [
  ⟨mkRx true (seqs [.group 1 (alts [lit "hi", lit "hello", lit "hey", lit "hola", lit "howdy"]),
      .star true punc1, .eol]),
    "Hi there! What can I help you with today? I can help you create and manage database tables."⟩,
  ⟨mkRx true (seqs [.group 1 (alts [lit "hi", lit "hello", lit "hey", lit "hola", lit "howdy"]),
      wsPlus, .group 2 (alts [lit "there", lit "everyone", lit "friend"]), .star true punc1, .eol]),
    "Hello! How can I assist you today? I can help you with database operations."⟩,
  ⟨mkRx false (seqs [lit "how", wsPlus, .group 1 (alts [lit "are", lit "r"]), wsPlus,
      .group 2 (alts [lit "you", lit "u"]), .star true punc2, .eol]),
    "I" ++ ap ++ "m doing great, thank you for asking! I" ++ ap ++
      "m here to help you manage your databases. How can I assist you today?"⟩,
  ⟨mkRx true (seqs [.group 1 (alts [seqs [lit "what", .opt true (chr apc), lit "s", wsPlus, lit "up"],
      lit "sup", lit "wassup"]), .star true punc2, .eol]),
    "Not much! Just here to help you with your database needs. What would you like to do?"⟩,
  ⟨mkRx true (seqs [.group 1 (alts [seqs [lit "good", wsPlus, lit "morning"], lit "morning"]),
      .star true punc1, .eol]),
    "Good morning! Ready to help you with your database tasks. What can I do for you?"⟩,
  ⟨mkRx true (seqs [.group 1 (alts [seqs [lit "good", wsPlus, lit "afternoon"], lit "afternoon"]),
      .star true punc1, .eol]),
    "Good afternoon! How can I help you with your database today?"⟩,
  ⟨mkRx true (seqs [.group 1 (alts [seqs [lit "good", wsPlus, lit "evening"], lit "evening"]),
      .star true punc1, .eol]),
    "Good evening! What database operations would you like to perform?"⟩,
  ⟨mkRx true (seqs [.group 1 (alts [seqs [lit "good", wsPlus, lit "night"], lit "night"]),
      .star true punc1, .eol]),
    "Good night! Before you go, is there anything you" ++ ap ++ "d like me to help you with?"⟩,
  ⟨mkRx true (seqs [.group 1 (alts [seqs [lit "thank", .star true wsCls, lit "you"],
      lit "thanks", lit "thx", lit "ty"]), .star true punc1, .eol]),
    "You" ++ ap ++ "re welcome! Let me know if you need anything else with your database."⟩,
  ⟨mkRx true (seqs [.group 1 (alts [lit "bye", lit "goodbye", seqs [lit "see", wsPlus, lit "you"],
      lit "cya"]), .star true punc1, .eol]),
    "Goodbye! Feel free to come back anytime you need help with your database."⟩,
  ⟨mkRx false (seqs [lit "what", wsPlus, lit "can", wsPlus, lit "you", wsPlus, lit "do",
      .star true punc2, .eol]),
    "I can help you with database operations! You can:\n• Create tables: " ++ ap ++
      "create a table student with id, name, email" ++ ap ++ "\n• Insert data: " ++ ap ++
      "insert into student values 101, John, john@email.com" ++ ap ++ "\n• View tables: " ++ ap ++
      "show student table" ++ ap ++ " or " ++ ap ++ "show all tables" ++ ap ++
      "\n• Delete tables: " ++ ap ++ "delete table student" ++ ap ++ "\n• And more!"⟩,
  ⟨mkRx true (seqs [lit "help", .star true punc1, .eol]),
    "I" ++ ap ++ "m here to help! Here are some things you can ask me:\n• " ++ ap ++
      "create a table student with id, name, email" ++ ap ++ "\n• " ++ ap ++
      "insert into student values 101, John, john@email.com" ++ ap ++ "\n• " ++ ap ++
      "show student table" ++ ap ++ "\n• " ++ ap ++ "show all tables" ++ ap ++ "\n• " ++ ap ++
      "delete table student" ++ ap ++ "\nJust type your command in natural language!"⟩,
  ⟨mkRx false (seqs [lit "who", wsPlus, .group 1 (alts [lit "are", lit "r"]), wsPlus,
      .group 2 (alts [lit "you", lit "u"]), .star true punc2, .eol]),
    "I" ++ ap ++ "m ChatDB, your AI database assistant! I help you create and manage database" ++
      " tables using natural language. Just tell me what you need!"⟩,
  ⟨mkRx true (seqs [.group 1 (alts [lit "nice", lit "cool", lit "awesome", lit "great",
      lit "perfect"]), .star true punc1, .eol]),
    "Glad you think so! Is there anything else you" ++ ap ++ "d like me to help you with?"⟩]

/-- The greeting loop at the top of `processNaturalLanguageCommand`: the
first pattern whose `test` succeeds on the trimmed message wins. -/
def tryGreeting (trimmed : String) : Option String :=
  greetingPatterns.findSome?
    (fun gp => if jsTest gp.pattern trimmed then some gp.response else none)

/-! ### Action descriptors and the trigger regexes -/

structure Column where
  name : String
  type : String
deriving DecidableEq, Repr

/-- The action-specific `details` payloads the interpreter can emit. -/
inductive Details where
  | conversation (response : String)
  | insertRow (tableName : String) (values : List String)
  | updateRow (tableName setClause whereClause : String)
  | deleteRow (tableName whereClause : String)
  | createDatabase (name : String)
  | createTable (name : String) (columns : List Column) (databaseName : Option String)
  | deleteDatabase (databaseName : String)
  | showDatabases
  | deleteTable (tableName : String)
  | showTable (tableName : String)
  | showTables (message : String)
  | query (message : String)
deriving DecidableEq, Repr

structure ActionDescriptor where
  action : String
  details : Details
deriving DecidableEq, Repr

/-- `/insert\s+(?:into\s+)?(?:table\s+)?(\w+)\s+(?:table\s+)?(?:values?\s+)?(.+)/i` -/
def rxInsert : JSRegex := mkRx false (seqs [lit "insert", wsPlus,
  .opt true (seqs [lit "into", wsPlus]), .opt true (seqs [lit "table", wsPlus]),
  .group 1 wordPlus, wsPlus, .opt true (seqs [lit "table", wsPlus]),
  .opt true (seqs [lit "value", .opt true (chr 's'), wsPlus]), .group 2 (rep1 true dotCls)])

/-- `/update\s+(?:table\s+)?(\w+)\s+(?:table\s+)?set\s+(.+?)\s+where\s+(.+)/i` -/
def rxUpdate : JSRegex := mkRx false (seqs [lit "update", wsPlus,
  .opt true (seqs [lit "table", wsPlus]), .group 1 wordPlus, wsPlus,
  .opt true (seqs [lit "table", wsPlus]), lit "set", wsPlus, .group 2 (rep1 false dotCls),
  wsPlus, lit "where", wsPlus, .group 3 (rep1 true dotCls)])

/-- `/delete\s+(?:from\s+)?(?:table\s+)?(\w+)\s+(?:table\s+)?where\s+(.+)/i` -/
def rxDeleteRow : JSRegex := mkRx false (seqs [lit "delete", wsPlus,
  .opt true (seqs [lit "from", wsPlus]), .opt true (seqs [lit "table", wsPlus]),
  .group 1 wordPlus, wsPlus, .opt true (seqs [lit "table", wsPlus]), lit "where", wsPlus,
  .group 2 (rep1 true dotCls)])

/-- `/create\s+(?:a\s+)?database\s+(?:called\s+|named\s+)?(\w+)/i` -/
def rxCreateDb : JSRegex := mkRx false (seqs [lit "create", wsPlus,
  .opt true (seqs [lit "a", wsPlus]), lit "database", wsPlus,
  .opt true (alts [seqs [lit "called", wsPlus], seqs [lit "named", wsPlus]]),
  .group 1 wordPlus])

/-- `/(?:create\s+(?:a\s+)?table\s+)(\w+)/i` -/
def rxTbl : JSRegex := mkRx false (seqs [lit "create", wsPlus,
  .opt true (seqs [lit "a", wsPlus]), lit "table", wsPlus, .group 1 wordPlus])

/-- `/(?:table\s+\w+\s+(?:with\s+)?)(.*?)(?:\s+in\s+database\s+|$)/i` -/
def rxCols : JSRegex := mkRx false (seqs [lit "table", wsPlus, wordPlus, wsPlus,
  .opt true (seqs [lit "with", wsPlus]), .group 1 (.star false dotCls),
  .alt (seqs [wsPlus, lit "in", wsPlus, lit "database", wsPlus]) .eol])

/-- `/in\s+(?:database\s+)?(\w+)\s*$/i` -/
def rxDb : JSRegex := mkRx false (seqs [lit "in", wsPlus,
  .opt true (seqs [lit "database", wsPlus]), .group 1 wordPlus, .star true wsCls, .eol])

/-- `/(?:delete|drop)\s+(?:database\s+)?(\w+)/i` -/
def rxDelDb : JSRegex := mkRx false (seqs [.alt (lit "delete") (lit "drop"), wsPlus,
  .opt true (seqs [lit "database", wsPlus]), .group 1 wordPlus])

/-- `/(?:delete|drop)\s+(?:table\s+)?(\w+)/i` -/
def rxDelTbl : JSRegex := mkRx false (seqs [.alt (lit "delete") (lit "drop"), wsPlus,
  .opt true (seqs [lit "table", wsPlus]), .group 1 wordPlus])

/-- `/show\s+(?:(?:all\s+columns\s+of\s+)?)?(?:table\s+)?(\w+)(?:\s+table)?/i` -/
def rxShowTbl : JSRegex := mkRx false (seqs [lit "show", wsPlus,
  .opt true (.opt true (seqs [lit "all", wsPlus, lit "columns", wsPlus, lit "of", wsPlus])),
  .opt true (seqs [lit "table", wsPlus]), .group 1 wordPlus,
  .opt true (seqs [wsPlus, lit "table"])])

/-- The keyword heuristic typing each comma-split column token. -/
def columnHeuristic (col : String) : Column :=
  if containsSub col "email" then ⟨col, "text"⟩
  else if containsSub col "id" then ⟨col, "integer"⟩
  else if containsSub col "age" || containsSub col "count" || containsSub col "number" ||
      containsSub col "phone" then ⟨col, "integer"⟩
  else ⟨col, "text"⟩

/-! ### The trigger chain of `processNaturalLanguageCommand`

Each branch of the source's if/return chain is a function from the raw
message `u` and the lower-cased trimmed message `msg` to an optional
payload; `none` means the branch falls through. -/

def insertParse (u msg : String) : Option (String × List String) :=
  if containsSub msg "insert" then
    match jsExec rxInsert u with
    | some caps =>
      match cap caps 1, cap caps 2 with
      | some tableName, some valuesStr =>
        some (tableName, (splitStr ',' valuesStr).map jsTrimStr)
      | _, _ => none
    | none => none
  else none

def tryInsert (u msg : String) : Option ActionDescriptor :=
  (insertParse u msg).map (fun p => ⟨"insert_row", .insertRow p.1 p.2⟩)

def updateParse (u msg : String) : Option (String × String × String) :=
  if containsSub msg "update" then
    match jsExec rxUpdate u with
    | some caps =>
      match cap caps 1, cap caps 2, cap caps 3 with
      | some t, some s, some w => some (t, s, w)
      | _, _, _ => none
    | none => none
  else none

def tryUpdate (u msg : String) : Option ActionDescriptor :=
  (updateParse u msg).map (fun p => ⟨"update_row", .updateRow p.1 p.2.1 p.2.2⟩)

def deleteRowParse (u msg : String) : Option (String × String) :=
  if containsSub msg "delete" then
    match jsExec rxDeleteRow u with
    | some caps =>
      match cap caps 1, cap caps 2 with
      | some t, some w => some (t, w)
      | _, _ => none
    | none => none
  else none

def tryDeleteRow (u msg : String) : Option ActionDescriptor :=
  (deleteRowParse u msg).map (fun p => ⟨"delete_row", .deleteRow p.1 p.2⟩)

def createDbParse (u msg : String) : Option String :=
  if containsSub msg "create" && containsSub msg "database" && !containsSub msg "table" then
    match jsExec rxCreateDb u with
    | some caps => cap caps 1
    | none => none
  else none

def tryCreateDatabase (u msg : String) : Option ActionDescriptor :=
  (createDbParse u msg).map (fun n => ⟨"create_database", .createDatabase n⟩)

def createTableParse (u msg : String) :
    Option (String × List Column × Option String) :=
  if containsSub msg "create" && (containsSub msg "table" || containsSub msg "tables") then
    match jsExec rxTbl u with
    | some tcaps =>
      match cap tcaps 1 with
      | some tableName =>
        let columnsText := match jsExec rxCols u with
          | some ccaps => (cap ccaps 1).getD ""
          | none => ""
        let databaseName := match jsExec rxDb u with
          | some dcaps => cap dcaps 1
          | none => none
        let columnsList :=
          (((splitStr ',' columnsText).map (fun c => lowerStr (jsTrimStr c))).filter
            (fun c => !(c == "") && !(c == "in"))).map columnHeuristic
        if columnsList.isEmpty then none else some (tableName, columnsList, databaseName)
      | none => none
    | none => none
  else none

def tryCreateTable (u msg : String) : Option ActionDescriptor :=
  (createTableParse u msg).map (fun p => ⟨"create_table", .createTable p.1 p.2.1 p.2.2⟩)

def deleteDbParse (u msg : String) : Option String :=
  if (containsSub msg "delete" || containsSub msg "drop") && containsSub msg "database" &&
      !containsSub msg "table" then
    match jsExec rxDelDb u with
    | some caps => cap caps 1
    | none => none
  else none

def tryDeleteDatabase (u msg : String) : Option ActionDescriptor :=
  (deleteDbParse u msg).map (fun n => ⟨"delete_database", .deleteDatabase n⟩)

def showDbsParse (_u msg : String) : Option Unit :=
  if containsSub msg "show" && (containsSub msg "database" || containsSub msg "databases") &&
      !containsSub msg "table" then some () else none

def tryShowDatabases (u msg : String) : Option ActionDescriptor :=
  (showDbsParse u msg).map (fun _ => ⟨"show_databases", .showDatabases⟩)

def deleteTableParse (u msg : String) : Option String :=
  if (containsSub msg "delete" || containsSub msg "drop") && containsSub msg "table" then
    match jsExec rxDelTbl u with
    | some caps => cap caps 1
    | none => none
  else none

def tryDeleteTable (u msg : String) : Option ActionDescriptor :=
  (deleteTableParse u msg).map (fun n => ⟨"delete_table", .deleteTable n⟩)

def showTableParse (u msg : String) : Option String :=
  if containsSub msg "show" then
    match jsExec rxShowTbl u with
    | some caps =>
      match cap caps 1 with
      | some t =>
        if !containsSub msg "all table" && !containsSub msg "all tables" then some t else none
      | none => none
    | none => none
  else none

def tryShowTable (u msg : String) : Option ActionDescriptor :=
  (showTableParse u msg).map (fun t => ⟨"show_table", .showTable t⟩)

def showTablesParse (u msg : String) : Option String :=
  if containsSub msg "show" && (containsSub msg "all table" || containsSub msg "all tables") then
    some u
  else none

def tryShowTables (u msg : String) : Option ActionDescriptor :=
  (showTablesParse u msg).map (fun m => ⟨"show_tables", .showTables m⟩)

/-- The interpreter's branches after the greeting loop, in source order. -/
def interpretBranches (u msg : String) : List (Option ActionDescriptor) :=
  [tryInsert u msg, tryUpdate u msg, tryDeleteRow u msg, tryCreateDatabase u msg,
   tryCreateTable u msg, tryDeleteDatabase u msg, tryShowDatabases u msg,
   tryDeleteTable u msg, tryShowTable u msg, tryShowTables u msg]

/-- First branch that fires. -/
def interpretChain (u msg : String) : Option ActionDescriptor :=
  (interpretBranches u msg).findSome? id

/-- `processNaturalLanguageCommand` (source lines 278-388). -/
def processNaturalLanguageCommand (userMessage : String) : ActionDescriptor :=
  let msg := jsTrimStr (lowerStr userMessage)
  match tryGreeting (jsTrimStr userMessage) with
  | some response => ⟨"conversation", .conversation response⟩
  | none => (interpretChain userMessage msg).getD ⟨"query", .query userMessage⟩

/-! ### Column-name normalization and row objects -/

/-- `replace(/\s+/g, "_")`: collapse each maximal whitespace run to one
underscore.  The flag records whether the previous character was part of a
run already replaced. -/
def wsCollapseAux : Bool → List Char → List Char
  | _, [] => []
  | inRun, c :: rest =>
    if isJsWS c then
      if inRun then wsCollapseAux true rest else '_' :: wsCollapseAux true rest
    else c :: wsCollapseAux false rest

/-- Membership in `[a-z0-9_]`, by code point. -/
def isAlnumU (c : Char) : Bool :=
  (decide (97 ≤ c.toNat) && decide (c.toNat ≤ 122)) ||
  (decide (48 ≤ c.toNat) && decide (c.toNat ≤ 57)) || decide (c.toNat = 95)

/-- Membership in `[A-Z]`, by code point. -/
def isUpperAscii (c : Char) : Bool := decide (65 ≤ c.toNat) && decide (c.toNat ≤ 90)

/-- Header normalization of the unstructured-text extractor:
`h.toLowerCase().replace(/\s+/g, "_").replace(/[^a-z0-9_]/g, "")`. -/
def normTextHeader (h : String) : String :=
  String.mk ((wsCollapseAux false (lowerStr h).toList).filter isAlnumU)

/-- Header normalization of the spreadsheet extractor:
`String(h || "column").toLowerCase().replace(/\s+/g, "_")`. -/
def normExcelHeader (h : JSVal) : String :=
  String.mk (wsCollapseAux false (lowerStr (jsToString (if jsFalsy h then .str "column" else h))).toList)

/-- Header normalization of the CSV extractor:
`h.trim().toLowerCase().replace(/\s+/g, "_").replace(/"/g, "")`. -/
def normCsvHeader (h : String) : String :=
  String.mk ((wsCollapseAux false (lowerStr (jsTrimStr h)).toList).filter (fun c => !(c = '"')))

/-- JS object property assignment `o[key] = v` on an insertion-ordered
association list: overwrite in place if present, else append. -/
def objSet (o : List (String × JSVal)) (key : String) (v : JSVal) : List (String × JSVal) :=
  if o.any (fun p => p.1 == key) then o.map (fun p => if p.1 == key then (key, v) else p)
  else o ++ [(key, v)]

structure ExtractedTable where
  name : String
  columns : List Column
  rows : List (List (String × JSVal))
deriving DecidableEq, Repr

/-! ### JSON values and `JSON.parse` (for the image-extraction path) -/

inductive JsonVal where
  | null
  | boolean (b : Bool)
  | num (n : Int)
  | str (s : String)
  | arr (elems : List JsonVal)
  | obj (fields : List (String × JsonVal))

def jsonIsWS (c : Char) : Bool :=
  c = ' ' || c = Char.ofNat 9 || c = Char.ofNat 10 || c = Char.ofNat 13

def jsonSkipWS (cs : List Char) : List Char := cs.dropWhile jsonIsWS

/-- Characters of a JSON string literal after the opening quote, with the
basic escapes; `\uXXXX` escapes are unmodelled (they make the parse fail,
which only narrows the model's success set — no claim depends on them). -/
def jsonStrChars : List Char → Option (List Char × List Char)
  | [] => none
  | '"' :: rest => some ([], rest)
  | '\\' :: e :: rest =>
    ((match e with
      | '"' => some '"'
      | '\\' => some '\\'
      | '/' => some '/'
      | 'n' => some (Char.ofNat 10)
      | 't' => some (Char.ofNat 9)
      | 'r' => some (Char.ofNat 13)
      | 'b' => some (Char.ofNat 8)
      | 'f' => some (Char.ofNat 12)
      | _ => none : Option Char)).bind
      (fun c => (jsonStrChars rest).map (fun p => (c :: p.1, p.2)))
  | c :: rest => (jsonStrChars rest).map (fun p => (c :: p.1, p.2))

def natOfDigits (ds : List Char) : Nat := ds.foldl (fun a c => a * 10 + (c.toNat - 48)) 0

/-- JSON integer literal (strict: no leading zeros).  Fractions and
exponents are unmodelled and make the parse fail. -/
def parseJsonNat (cs : List Char) : Option (Nat × List Char) :=
  match cs with
  | '0' :: rest =>
    (match rest with
     | c :: _ => if c.isDigit || c = '.' || c = 'e' || c = 'E' then none else some (0, rest)
     | [] => some (0, []))
  | c :: _ =>
    if c.isDigit then
      let ds := cs.takeWhile Char.isDigit
      let rest2 := cs.dropWhile Char.isDigit
      match rest2 with
      | d :: _ => if d = '.' || d = 'e' || d = 'E' then none else some (natOfDigits ds, rest2)
      | [] => some (natOfDigits ds, [])
    else none
  | [] => none

def parseJsonNum (cs : List Char) : Option (JsonVal × List Char) :=
  match cs with
  | '-' :: rest => (parseJsonNat rest).map (fun p => (.num (-(p.1 : Int)), p.2))
  | _ => (parseJsonNat cs).map (fun p => (.num ((p.1 : Nat) : Int), p.2))

mutual

def parseJsonVal : Nat → List Char → Option (JsonVal × List Char)
  | 0, _ => none
  | fuel + 1, cs =>
    match jsonSkipWS cs with
    | 'n' :: 'u' :: 'l' :: 'l' :: rest => some (.null, rest)
    | 't' :: 'r' :: 'u' :: 'e' :: rest => some (.boolean true, rest)
    | 'f' :: 'a' :: 'l' :: 's' :: 'e' :: rest => some (.boolean false, rest)
    | '"' :: rest => (jsonStrChars rest).map (fun p => (.str (String.mk p.1), p.2))
    | '[' :: rest =>
      (match jsonSkipWS rest with
       | ']' :: r2 => some (.arr [], r2)
       | r2 => (parseJsonItems fuel r2).map (fun p => (.arr p.1, p.2)))
    | '{' :: rest =>
      (match jsonSkipWS rest with
       | '}' :: r2 => some (.obj [], r2)
       | r2 => (parseJsonFields fuel r2).map (fun p => (.obj p.1, p.2)))
    | cs2 => parseJsonNum cs2

def parseJsonItems : Nat → List Char → Option (List JsonVal × List Char)
  | 0, _ => none
  | fuel + 1, cs =>
    match parseJsonVal fuel cs with
    | some (v, rest) =>
      (match jsonSkipWS rest with
       | ',' :: r2 => (parseJsonItems fuel r2).map (fun p => (v :: p.1, p.2))
       | ']' :: r2 => some ([v], r2)
       | _ => none)
    | none => none

def parseJsonFields : Nat → List Char → Option (List (String × JsonVal) × List Char)
  | 0, _ => none
  | fuel + 1, cs =>
    match jsonSkipWS cs with
    | '"' :: rest =>
      (match jsonStrChars rest with
       | some (key, r2) =>
         (match jsonSkipWS r2 with
          | ':' :: r3 =>
            (match parseJsonVal fuel r3 with
             | some (v, r4) =>
               (match jsonSkipWS r4 with
                | ',' :: r5 =>
                  (parseJsonFields fuel r5).map (fun p => ((String.mk key, v) :: p.1, p.2))
                | '}' :: r5 => some ([(String.mk key, v)], r5)
                | _ => none)
             | none => none)
          | _ => none)
       | none => none)
    | _ => none

end

/-- `JSON.parse`: the whole string must be one JSON value (plus whitespace). -/
def parseJson (s : String) : Option JsonVal :=
  match parseJsonVal (s.length + 1) s.toList with
  | some (v, rest) => if (jsonSkipWS rest).isEmpty then some v else none
  | none => none

/-! ### Extraction results -/

/-- Tables flowing through `ExtractedData`: the typed extractors build
`ExtractedTable` values, while the image path passes through whatever JSON
values the oracle reply contained (JS performs no validation there). -/
inductive AnyTable where
  | typed (t : ExtractedTable)
  | fromImage (j : JsonVal)

structure ExtractedData where
  tables : List AnyTable
  textContent : Option String

/-! ### Image extraction (the oracle reply is the input; the network call
itself is outside the model) -/

/-- The greedy source regex `/\x7b[\s\S]*\x7d/` used on the oracle reply. -/
def rxJson : JSRegex := mkRx false (seqs [.cls (fun c => c = '{'), .star true anyCls,
  .cls (fun c => c = '}')])

/-- `responseText.match(rxJson)?.[0]`. -/
def jsonGreedyMatch (responseText : String) : Option String :=
  (jsExec rxJson responseText).bind (fun caps => cap caps 0)

/-- `parsed.tables || []`, read as a list of (unvalidated) JSON tables: a
JSON-array field gives its elements; a missing or falsy field gives `[]`.
(A truthy non-array `tables` field would propagate an ill-typed value in JS;
it is modelled as `[]` and no claim depends on that case.) -/
def jsTablesOf (v : JsonVal) : List JsonVal :=
  match v with
  | .obj fields =>
    (match fields.lookup "tables" with
     | some (.arr xs) => xs
     | _ => [])
  | _ => []

/-- `extractFromImage` (source lines 199-258): the short-circuit without a
credential, then the greedy JSON-span match, `JSON.parse` and the `tables`
normalization; any failure is caught and becomes `{tables: []}`. -/
def extractFromImage (apiKeySet : Bool) (responseText : String) : ExtractedData :=
  if !apiKeySet then ⟨[], some "Gemini API key not configured for image processing"⟩
  else
    match jsonGreedyMatch responseText with
    | some span =>
      (match parseJson span with
       | some parsed =>
         ⟨(jsTablesOf parsed).map .fromImage, some "Extracted from image using AI"⟩
       | none => ⟨[], none⟩)
    | none => ⟨[], none⟩

/-! ### Spreadsheet extraction (modelled from the `sheet_to_json` row matrix
on; the XLSX byte decoding belongs to the external library) -/

def excelRow (headers : List String) (row : List JSVal) : List (String × JSVal) :=
  (headers.enum).foldl
    (fun o p => objSet o p.2
      (match row.get? p.1 with
       | some v => if v == .undef then .null else v
       | none => .null)) []

def excelSheetTable (sheetName : String) (jsonData : List (List JSVal)) :
    Option ExtractedTable :=
  match jsonData with
  | [] => none
  | [_] => none
  | headerRow :: dataRows =>
    let headers := headerRow.map normExcelHeader
    let columns := (headers.enum).map (fun p =>
      let colValues := dataRows.map (fun row => (row.get? p.1).getD .undef)
      Column.mk p.2 (inferColumnType colValues))
    let rows := (dataRows.map (excelRow headers)).filter
      (fun row => (row.map Prod.snd).any (fun v => !(v == .null) && !(v == .str "")))
    some ⟨String.mk (wsCollapseAux false (lowerStr sheetName).toList), columns, rows⟩

def extractFromExcel (sheets : List (String × List (List JSVal))) : ExtractedData :=
  ⟨(sheets.filterMap (fun s => excelSheetTable s.1 s.2)).map .typed, none⟩

/-! ### CSV extraction -/

/-- `content.split(/\r?\n/).filter(line => line.trim())`. -/
def csvLines (content : String) : List String :=
  ((splitStr (Char.ofNat 10) content).map stripTrailingCR).filter
    (fun l => !(jsTrimStr l == ""))

/-- `.trim().replace(/"/g, "")` applied to one raw cell. -/
def csvClean (c : String) : String :=
  String.mk ((jsTrimStr c).toList.filter (fun ch => !(ch = '"')))

def extractFromCSV (content : String) : ExtractedData :=
  match csvLines content with
  | [] => ⟨[], none⟩
  | [_] => ⟨[], none⟩
  | headerLine :: dataRows =>
    let headers := (splitStr ',' headerLine).map normCsvHeader
    let columns := (headers.enum).map (fun p =>
      let colValues := dataRows.map (fun row =>
        match (splitStr ',' row).get? p.1 with
        | some cell => JSVal.str (csvClean cell)
        | none => JSVal.undef)
      Column.mk p.2 (inferColumnType colValues))
    let rows := (dataRows.map (fun line =>
      let cells := (splitStr ',' line).map csvClean
      (headers.enum).foldl (fun o p =>
        objSet o p.2
          (match cells.get? p.1 with
           | some c => if c == "" then .null else .str c
           | none => .null)) [])).filter
      (fun row => (row.map Prod.snd).any (fun v => !(v == .null) && !(v == .str "")))
    ⟨[.typed ⟨"imported_csv", columns, rows⟩], none⟩

/-! ### Unstructured-text extraction -/

mutual

/-- `line.split(/\s{2,}|\t/)`: state A is inside a field (`cur` holds its
characters reversed); a whitespace run of length at least two, or a single
tab, is a delimiter. -/
def splitCellsA (cur : List Char) : List Char → List (List Char)
  | [] => [cur.reverse]
  | [c] =>
    if isJsWS c then
      if c = Char.ofNat 9 then [cur.reverse, []] else [(c :: cur).reverse]
    else [(c :: cur).reverse]
  | c :: d :: rest =>
    if isJsWS c then
      if isJsWS d then cur.reverse :: splitCellsB (d :: rest)
      else if c = Char.ofNat 9 then cur.reverse :: splitCellsA [] (d :: rest)
      else splitCellsA (c :: cur) (d :: rest)
    else splitCellsA (c :: cur) (d :: rest)

/-- State B: inside a delimiter run; skip its whitespace, then start the
next field (a run that ends the line leaves a trailing empty field, as JS
`split` does). -/
def splitCellsB : List Char → List (List Char)
  | [] => [[]]
  | c :: rest => if isJsWS c then splitCellsB rest else splitCellsA [c] rest

end

/-- `line.split(/\s{2,}|\t/).map(c => c.trim()).filter(c => c)`. -/
def rowCells (line : String) : List String :=
  ((splitCellsA [] line.toList).map (fun cs => jsTrimStr (String.mk cs))).filter (fun c => !(c == ""))

/-- `createTableFromData` (source lines 173-197). -/
def createTableFromData (data : List (List String)) (tableIndex : Nat) :
    Option ExtractedTable :=
  match data with
  | [] => none
  | [_] => none
  | headerRow :: dataRows =>
    let headers := headerRow.map normTextHeader
    let columns := (headers.enum).map (fun p =>
      let colValues := dataRows.map (fun row => JSVal.str ((row.get? p.1).getD ""))
      Column.mk (if p.2 == "" then "col_" ++ toString p.1 else p.2)
        (inferColumnType colValues))
    let rows := dataRows.map (fun row =>
      (headers.enum).foldl (fun o p =>
        objSet o (if p.2 == "" then "col_" ++ toString p.1 else p.2)
          (match row.get? p.1 with
           | some c => if c == "" then .null else .str c
           | none => .null)) [])
    some ⟨"pdf_table_" ++ toString (tableIndex + 1), columns, rows⟩

/-- Loop state of `extractTablesFromText`. -/
structure TTState where
  tables : List ExtractedTable
  tableData : List (List String)
  inTable : Bool
deriving DecidableEq, Repr

/-- One iteration of the line loop of `extractTablesFromText`. -/
def ttStep (st : TTState) (line : String) : TTState :=
  let cells := rowCells line
  if 2 ≤ cells.length then
    { tables := st.tables,
      tableData := (if st.inTable then st.tableData else []) ++ [cells],
      inTable := true }
  else if st.inTable ∧ 2 ≤ st.tableData.length then
    { tables := st.tables ++ (createTableFromData st.tableData st.tables.length).toList,
      tableData := [],
      inTable := false }
  else st

/-- `text.split("\n").map(l => l.trim()).filter(l => l)`. -/
def ttLines (text : String) : List String :=
  ((splitStr (Char.ofNat 10) text).map jsTrimStr).filter (fun l => !(l == ""))

def ttFold (text : String) : TTState := (ttLines text).foldl ttStep ⟨[], [], false⟩

/-- `extractTablesFromText` (source lines 141-171). -/
def extractTablesFromText (text : String) : List ExtractedTable :=
  let st := ttFold text
  if st.inTable ∧ 2 ≤ st.tableData.length then
    st.tables ++ (createTableFromData st.tableData st.tables.length).toList
  else st.tables

/-- `extractFromPDF`: `pdf-parse` is external, so its outcome (the extracted
text, or a thrown error caught by the handler) is the input. -/
def extractFromPDF (pdfParsed : Option String) : ExtractedData :=
  match pdfParsed with
  | some text => ⟨(extractTablesFromText text).map .typed, some text⟩
  | none => ⟨[], none⟩

/-! ### File dispatch -/

/-- A decoded upload: every per-format view the dispatcher's branches
consume (the byte-level decodings belong to external libraries). -/
structure FileInput where
  excelSheets : List (String × List (List JSVal))
  utf8 : String
  pdfParsed : Option String
  apiKeySet : Bool
  oracleReply : String

/-- `extractDataFromFile` (source lines 34-51): dispatch purely on the file
extension; unrecognized extensions and caught errors give `{tables: []}`. -/
def extractDataFromFile (input : FileInput) (ext : String) : ExtractedData :=
  if ext = ".xlsx" ∨ ext = ".xls" then extractFromExcel input.excelSheets
  else if ext = ".csv" then extractFromCSV input.utf8
  else if ext = ".pdf" then extractFromPDF input.pdfParsed
  else if ext = ".png" ∨ ext = ".jpg" ∨ ext = ".jpeg" then
    extractFromImage input.apiKeySet input.oracleReply
  else ⟨[], none⟩

/-! ### The response formatter -/

/-- The untyped `details` argument of `generateChatResponse` (`details: any`
in the source): each field the templates read, possibly absent. -/
structure RespDetails where
  name : Option String := none
  columns : Option (List Column) := none
  tableName : Option String := none
  values : Option (List String) := none
  message : Option String := none
deriving DecidableEq, Repr

structure ResCol where
  name : String
deriving DecidableEq, Repr

structure ResRow where
  data : Option (List (String × JSVal))
deriving DecidableEq, Repr

structure ResTable where
  name : String
  columns : List ResCol
deriving DecidableEq, Repr

/-- The optional execution `result` handed to `generateChatResponse`. -/
structure ExecResult where
  table : Option ResTable
  rows : Option (List ResRow)
deriving DecidableEq, Repr

/-- `String(x || "")` for a possibly-absent cell value. -/
def renderCell (v : Option JSVal) : String :=
  match v with
  | none => ""
  | some v => if jsFalsy v then "" else jsToString v

/-- `String(row.data?.[c.name] || "")`. -/
def cellString (row : ResRow) (colName : String) : String :=
  renderCell (row.data.bind (fun d => d.lookup colName))

/-- JS template interpolation of a possibly-undefined string. -/
def optStr (o : Option String) : String := o.getD "undefined"

/-- `details.columns?.map(c => c.name + "(" + c.type + ")").join(", ")`. -/
def colsTemplate : Option (List Column) → String
  | some cs => String.intercalate ", " (cs.map (fun c => c.name ++ "(" ++ c.type ++ ")"))
  | none => "undefined"

/-- `details.values?.join(", ")`. -/
def valuesTemplate : Option (List String) → String
  | some vs => String.intercalate ", " vs
  | none => "undefined"

/-- The per-action template object (source lines 411-419), with the
`details` interpolations already applied.  It is modelled as a plain map;
prototype-chain lookups of a JS object literal are not modelled. -/
def responsesMap (details : RespDetails) : List (String × String) :=
  [("create_table", "✓ Created table \"" ++ optStr details.name ++ "\" with columns: " ++
      colsTemplate details.columns),
   ("delete_table", "✓ Deleted table \"" ++ optStr details.tableName ++ "\""),
   ("insert_row", "✓ Inserted row into \"" ++ optStr details.tableName ++ "\" with values: " ++
      valuesTemplate details.values),
   ("update_row", "✓ Updated rows in \"" ++ optStr details.tableName ++ "\""),
   ("delete_row", "✓ Deleted rows from \"" ++ optStr details.tableName ++ "\""),
   ("show_tables", "📊 Showing all tables in database"),
   ("query", "Processing: " ++
      (match details.message with
       | some m => if m == "" then "your request" else m
       | none => "your request"))]

/-- `` `Done: ${details.message || "operation complete"}` ``. -/
def fallbackResponse (details : RespDetails) : String :=
  "Done: " ++
    (match details.message with
     | some m => if m == "" then "operation complete" else m
     | none => "operation complete")

/-- `String(responses[action] || fallback)`. -/
def lookupResponse (action : String) (details : RespDetails) : String :=
  match (responsesMap details).lookup action with
  | some r => if r == "" then fallbackResponse details else r
  | none => fallbackResponse details

/-- The `show_table` pipe-table rendering (source lines 391-409). -/
def showTableBody (res : ExecResult) : String :=
  match res.table with
  | none => "❌ Table not found"
  | some table =>
    let rows := res.rows.getD []
    let cols := table.columns
    let header := String.intercalate " | " (cols.map ResCol.name)
    let separator := String.intercalate "-+-" (cols.map (fun _ => "---"))
    let tableStr := "📋 TABLE: " ++ table.name ++ "\n\n" ++ header ++ "\n" ++ separator ++ "\n"
    if rows.isEmpty then tableStr ++ "(no rows)"
    else
      tableStr ++ String.intercalate "\n"
        (rows.map (fun row =>
          String.intercalate " | " (cols.map (fun c => cellString row c.name))))

/-- `generateChatResponse` (source lines 390-422). -/
def generateChatResponse (action : String) (details : RespDetails)
    (result : Option ExecResult) : String :=
  match result with
  | some res => if action == "show_table" then showTableBody res else lookupResponse action details
  | none => lookupResponse action details

/-! ### Spec-side reference definitions (used to state corrected claims) -/

/-- The claim's normalization invariant for a column name: lower-cased,
whitespace replaced by underscore, all other non-alphanumerics stripped —
i.e. every character is a lower-case letter, a digit or an underscore. -/
def normalizedName (s : String) : Bool := s.toList.all isAlnumU

/-- Modelled from the spec: the maximal runs of consecutive row-candidate
lines ("blocks"), as §4.2 of the spec describes them. -/
def specBlocksAux : List (List String) → List String → List (List (List String))
  | pending, [] => if pending.isEmpty then [] else [pending]
  | pending, line :: rest =>
    let cells := rowCells line
    if 2 ≤ cells.length then specBlocksAux (pending ++ [cells]) rest
    else if pending.isEmpty then specBlocksAux [] rest
    else pending :: specBlocksAux [] rest

/-- Modelled from the spec (§4.2, unstructured-text extractor): every
maximal run of candidate lines with at least two rows becomes exactly one
table, 1-indexed in discovery order; shorter runs are discarded. -/
def specExtractTablesFromText (text : String) : List ExtractedTable :=
  let blocks := (specBlocksAux [] (ttLines text)).filter (fun b => 2 ≤ b.length)
  (blocks.enum).filterMap (fun p => createTableFromData p.2 p.1)

/-- Modelled from the spec (§4.2, image extractor): the first top-level
balanced brace span of the reply, found by a brace-depth scanner. -/
def balancedSpan (depth : Nat) (acc : List Char) : List Char → Option (List Char)
  | [] => none
  | c :: rest =>
    if c = '}' then
      if depth = 1 then some (c :: acc).reverse
      else balancedSpan (depth - 1) (c :: acc) rest
    else if c = '{' then balancedSpan (depth + 1) (c :: acc) rest
    else balancedSpan depth (c :: acc) rest

/-- Modelled from the spec: locate the first `\x7b`, then scan to its
matching `\x7d`. -/
def specFirstBalancedJsonSpan (s : String) : Option String :=
  match s.toList.dropWhile (fun c => !(c = '{')) with
  | [] => none
  | c :: rest =>
    (balancedSpan 1 [c] rest).map (fun span => String.mk span)

/-! ### Claims -/

/-- C2: the type inferencer discards null/undefined/empty entries and
returns "text" if none remain; otherwise "integer" if every remaining value
parses as a number, else "date" if every remaining value parses as a
calendar date, else "text", the numeric check strictly preceding the date
check; and the four concrete examples hold. -/
theorem c2_infer_column_type :
    (∀ vs : List JSVal, nonEmptyOf vs = [] → inferColumnType vs = "text")
    ∧ (∀ vs : List JSVal,
        (nonEmptyOf vs).all (fun v => !jsNumberIsNaN v) = true →
        nonEmptyOf vs ≠ [] → inferColumnType vs = "integer")
    ∧ (∀ vs : List JSVal,
        (nonEmptyOf vs).all (fun v => !jsNumberIsNaN v) = false →
        (nonEmptyOf vs).all jsDateParses = true → inferColumnType vs = "date")
    ∧ (∀ vs : List JSVal,
        (nonEmptyOf vs).all (fun v => !jsNumberIsNaN v) = false →
        (nonEmptyOf vs).all jsDateParses = false → inferColumnType vs = "text")
    ∧ inferColumnType [.str "1", .str "2", .str "3"] = "integer"
    ∧ inferColumnType [.str "2024-01-01", .str "2024-02-02"] = "date"
    ∧ inferColumnType [.str "1", .str "x"] = "text"
    ∧ inferColumnType [] = "text" := by
  refine ⟨?_, ?_, ?_, ?_, by decide, by decide, by decide, by decide⟩
  · intro vs h
    simp [inferColumnType, h]
  · intro vs h1 h2
    have : (nonEmptyOf vs).isEmpty = false := by
      cases hne : nonEmptyOf vs with
      | nil => exact absurd hne h2
      | cons a l => simp [List.isEmpty]
    simp [inferColumnType, this, h1]
  · intro vs h1 h2
    have : (nonEmptyOf vs).isEmpty = false := by
      cases hne : nonEmptyOf vs with
      | nil => rw [hne] at h1; simp at h1
      | cons a l => simp [List.isEmpty]
    simp [inferColumnType, this, h1, h2]
  · intro vs h1 h2
    have : (nonEmptyOf vs).isEmpty = false := by
      cases hne : nonEmptyOf vs with
      | nil => rw [hne] at h1; simp at h1
      | cons a l => simp [List.isEmpty]
    simp [inferColumnType, this, h1, h2]

/-- Witness for C2 at a concrete input. -/
theorem c2_infer_column_type_witness : inferColumnType [JSVal.str "7"] = "integer" :=
  c2_infer_column_type.2.1 [JSVal.str "7"] (by decide) (by decide)

set_option maxRecDepth 100000

/-- C3: the two create-table examples parse exactly as claimed, and each
comma-split column token is typed by the keyword heuristic (email → text;
id → integer; age/count/number/phone → integer; otherwise text). -/
theorem c3_create_table_parsing :
    processNaturalLanguageCommand "create a table student with id, name, email" =
      ⟨"create_table", .createTable "student"
        [⟨"id", "integer"⟩, ⟨"name", "text"⟩, ⟨"email", "text"⟩] none⟩
    ∧ processNaturalLanguageCommand "create table student with id, name in database school" =
      ⟨"create_table", .createTable "student"
        [⟨"id", "integer"⟩, ⟨"name", "text"⟩] (some "school")⟩
    ∧ (∀ col, containsSub col "email" = true → columnHeuristic col = ⟨col, "text"⟩)
    ∧ (∀ col, containsSub col "email" = false → containsSub col "id" = true →
        columnHeuristic col = ⟨col, "integer"⟩)
    ∧ (∀ col, containsSub col "email" = false → containsSub col "id" = false →
        (containsSub col "age" || containsSub col "count" || containsSub col "number" ||
          containsSub col "phone") = true → columnHeuristic col = ⟨col, "integer"⟩)
    ∧ (∀ col, containsSub col "email" = false → containsSub col "id" = false →
        (containsSub col "age" || containsSub col "count" || containsSub col "number" ||
          containsSub col "phone") = false → columnHeuristic col = ⟨col, "text"⟩) := by
  refine ⟨by decide, by decide, ?_, ?_, ?_, ?_⟩
  · intro col h
    simp [columnHeuristic, h]
  · intro col h1 h2
    simp [columnHeuristic, h1, h2]
  · intro col h1 h2 h3
    simp [columnHeuristic, h1, h2, h3]
  · intro col h1 h2 h3
    simp only [Bool.or_eq_false_iff] at h3
    simp [columnHeuristic, h1, h2, h3.1.1.1, h3.1.1.2, h3.1.2, h3.2]

/-- Witness for C3 at a concrete column token. -/
theorem c3_create_table_parsing_witness : columnHeuristic "age" = ⟨"age", "integer"⟩ :=
  c3_create_table_parsing.2.2.2.2.1 "age" (by decide) (by decide) (by decide)

/-- C4: trigger precedence — "delete database school" yields
`delete_database` (never `delete_table`), and the three "show" branches are
mutually exclusive on "show all tables" versus "show student". -/
theorem c4_trigger_precedence :
    processNaturalLanguageCommand "delete database school" =
      ⟨"delete_database", .deleteDatabase "school"⟩
    ∧ (processNaturalLanguageCommand "delete database school").action ≠ "delete_table"
    ∧ processNaturalLanguageCommand "show all tables" =
      ⟨"show_tables", .showTables "show all tables"⟩
    ∧ processNaturalLanguageCommand "show student" = ⟨"show_table", .showTable "student"⟩ := by
  exact ⟨by decide, by decide, by decide, by decide⟩

/-- C1: totality of the core — the embedded `extract` and `interpret` are
total functions; `extractDataFromFile` returns `{tables: []}` for any
unrecognized extension, the CSV extractor degrades to `{tables: []}` on
malformed input with fewer than two non-blank lines, and an utterance
matched by no trigger resolves to `{action: "query", details: {message}}`. -/
theorem c1_core_totality :
    (∀ (input : FileInput) (ext : String),
      ext ∉ [".xlsx", ".xls", ".csv", ".pdf", ".png", ".jpg", ".jpeg"] →
      extractDataFromFile input ext = ⟨[], none⟩)
    ∧ (∀ content, (csvLines content).length < 2 → extractFromCSV content = ⟨[], none⟩)
    ∧ (∀ u, tryGreeting (jsTrimStr u) = none →
        interpretChain u (jsTrimStr (lowerStr u)) = none →
        processNaturalLanguageCommand u = ⟨"query", .query u⟩) := by
  refine ⟨?_, ?_, ?_⟩
  · intro input ext h
    simp only [List.mem_cons, List.not_mem_nil, or_false] at h
    push_neg at h
    obtain ⟨h1, h2, h3, h4, h5, h6, h7⟩ := h
    simp [extractDataFromFile, h1, h2, h3, h4, h5, h6, h7]
  · intro content h
    cases hc : csvLines content with
    | nil => simp [extractFromCSV, hc]
    | cons a l =>
      cases l with
      | nil => simp [extractFromCSV, hc]
      | cons b l2 => rw [hc] at h; simp at h; omega
  · intro u h1 h2
    simp only [processNaturalLanguageCommand]
    rw [h1, h2]
    rfl

/-- Witness for C1 at concrete inputs. -/
theorem c1_core_totality_witness :
    extractDataFromFile ⟨[], "", none, false, ""⟩ ".txt" = ⟨[], none⟩ ∧
    processNaturalLanguageCommand "zzz" = ⟨"query", .query "zzz"⟩ :=
  ⟨c1_core_totality.1 ⟨[], "", none, false, ""⟩ ".txt" (by decide),
   c1_core_totality.2.2 "zzz" (by decide) (by decide)⟩

/-- Elements delivered by `List.findSome? id` are elements of the list. -/
theorem findSome?_id_mem {α : Type} {l : List (Option α)} {d : α}
    (h : l.findSome? id = some d) : some d ∈ l := by
  induction l with
  | nil => simp [List.findSome?] at h
  | cons a t ih =>
    cases a with
    | none =>
      rw [List.findSome?_cons] at h
      simp only [id, Option.orElse] at h
      exact List.mem_cons_of_mem _ (ih h)
    | some x =>
      rw [List.findSome?_cons] at h
      simp only [id, Option.orElse] at h
      injection h with h2
      rw [← h2]
      exact List.mem_cons_self _ _

/-- A branch built as `Option.map` over a payload parser only emits
descriptors with that branch's fixed action string. -/
theorem action_of_map {α : Type} {a : String} {g : α → ActionDescriptor} {o : Option α}
    {d : ActionDescriptor} (hg : ∀ x, (g x).action = a) (h : o.map g = some d) :
    d.action = a := by
  cases o with
  | none => simp at h
  | some x =>
    simp only [Option.map_some'] at h
    injection h with h2
    rw [← h2]
    exact hg x

/-- Any action the post-greeting chain emits is one of the ten trigger
actions — in particular never `conversation`. -/
theorem chain_action_mem (u m : String) (d : ActionDescriptor)
    (h : interpretChain u m = some d) :
    d.action ∈ ["insert_row", "update_row", "delete_row", "create_database", "create_table",
      "delete_database", "show_databases", "delete_table", "show_table", "show_tables"] := by
  have hm := findSome?_id_mem (l := interpretBranches u m) h
  simp only [interpretBranches, List.mem_cons, List.not_mem_nil, or_false] at hm
  rcases hm with h1 | h1 | h1 | h1 | h1 | h1 | h1 | h1 | h1 | h1
  · unfold tryInsert at h1
    simp [action_of_map (a := "insert_row") (fun _ => rfl) h1.symm]
  · unfold tryUpdate at h1
    simp [action_of_map (a := "update_row") (fun _ => rfl) h1.symm]
  · unfold tryDeleteRow at h1
    simp [action_of_map (a := "delete_row") (fun _ => rfl) h1.symm]
  · unfold tryCreateDatabase at h1
    simp [action_of_map (a := "create_database") (fun _ => rfl) h1.symm]
  · unfold tryCreateTable at h1
    simp [action_of_map (a := "create_table") (fun _ => rfl) h1.symm]
  · unfold tryDeleteDatabase at h1
    simp [action_of_map (a := "delete_database") (fun _ => rfl) h1.symm]
  · unfold tryShowDatabases at h1
    simp [action_of_map (a := "show_databases") (fun _ => rfl) h1.symm]
  · unfold tryDeleteTable at h1
    simp [action_of_map (a := "delete_table") (fun _ => rfl) h1.symm]
  · unfold tryShowTable at h1
    simp [action_of_map (a := "show_table") (fun _ => rfl) h1.symm]
  · unfold tryShowTables at h1
    simp [action_of_map (a := "show_tables") (fun _ => rfl) h1.symm]

/-- C5 counterexample: "tell me what can you do" makes `interpret` return
`conversation` (the "what can you do" pattern has no start anchor and
matches a suffix) even though no greeting pattern matches the entire trimmed
utterance — refuting the claim that the conversation branch fires only on a
whole-string greeting match. -/
theorem c5_greeting_counterexample :
    (processNaturalLanguageCommand "tell me what can you do").action = "conversation"
    ∧ greetingPatterns.all
        (fun gp => !(fullMatches gp.pattern (jsTrimStr "tell me what can you do"))) = true := by
  exact ⟨by decide, by decide⟩

/-- C5 amended: `interpret` returns `conversation`, with the first matching
pattern's exact canned reply, exactly when some greeting pattern's `test`
succeeds on the trimmed utterance.  Most patterns are anchored to the whole
trimmed string, but the "how are you", "what can you do" and "who are you"
patterns are end-anchored only, so they also fire when the phrase merely
ends the utterance.  A greeting phrase embedded strictly mid-sentence
(e.g. "hi, can you show table x") does not trigger the branch. -/
theorem c5_greeting_anchoring_amended :
    (∀ u r, tryGreeting (jsTrimStr u) = some r →
      processNaturalLanguageCommand u = ⟨"conversation", .conversation r⟩)
    ∧ (∀ u, tryGreeting (jsTrimStr u) = none →
        (processNaturalLanguageCommand u).action ≠ "conversation")
    ∧ (processNaturalLanguageCommand "hi, can you show table x").action ≠ "conversation" := by
  refine ⟨?_, ?_, by decide⟩
  · intro u r h
    simp only [processNaturalLanguageCommand]
    rw [h]
  · intro u h
    simp only [processNaturalLanguageCommand]
    rw [h]
    cases hc : interpretChain u (jsTrimStr (lowerStr u)) with
    | none => simp [Option.getD]
    | some d =>
      simp only [Option.getD_some]
      intro habs
      have hm := chain_action_mem u (jsTrimStr (lowerStr u)) d hc
      rw [habs] at hm
      exact absurd hm (by decide)

/-- Witness for C5 amended at a concrete greeting. -/
theorem c5_greeting_anchoring_amended_witness :
    processNaturalLanguageCommand "hi" = ⟨"conversation", .conversation
      "Hi there! What can I help you with today? I can help you create and manage database tables."⟩ :=
  c5_greeting_anchoring_amended.1 "hi" _ (by decide)

/-- C6 counterexample: on "a  b / x / c  d / e  f / g" the single-row block
["a","b"] is not discarded when the non-candidate line "x" arrives — it
stays pending and merges with the next candidate run, so the code emits one
table headed by the 1-row block's cells, while the claim's reading (maximal
runs, sub-2-row runs discarded) predicts one table headed "c","d". -/
theorem c6_block_merge_counterexample :
    (extractTablesFromText "a  b\nx\nc  d\ne  f\ng").map
        (fun t => t.columns.map Column.name) = [["a", "b"]]
    ∧ (specExtractTablesFromText "a  b\nx\nc  d\ne  f\ng").map
        (fun t => t.columns.map Column.name) = [["c", "d"]] := by
  exact ⟨by decide, by decide⟩

/-- C6 amended: consecutive row-candidate lines accumulate into the pending
block; a non-candidate line closes the block — emitting exactly one table
(first row consumed as headers, named `pdf_table_N`, 1-indexed) — only when
the block already has at least two rows; a pending block with fewer than two
rows is NOT closed by a non-candidate line but stays open and absorbs the
following candidate lines; a sub-2-row block still pending at end of input
is discarded; a 3-line block yields one table with two data rows. -/
theorem c6_text_block_amended :
    (∀ st line, 2 ≤ (rowCells line).length → st.inTable = true →
      ttStep st line = ⟨st.tables, st.tableData ++ [rowCells line], true⟩)
    ∧ (∀ st line, (rowCells line).length < 2 → st.inTable = true →
        2 ≤ st.tableData.length →
        ttStep st line =
          ⟨st.tables ++ (createTableFromData st.tableData st.tables.length).toList, [], false⟩)
    ∧ (∀ st line, (rowCells line).length < 2 → st.inTable = true →
        st.tableData.length < 2 → ttStep st line = st)
    ∧ (∀ text, (ttFold text).tableData.length < 2 →
        extractTablesFromText text = (ttFold text).tables)
    ∧ extractTablesFromText "h1  h2\na  b\nc  d" =
        [⟨"pdf_table_1", [⟨"h1", "text"⟩, ⟨"h2", "text"⟩],
          [[("h1", .str "a"), ("h2", .str "b")], [("h1", .str "c"), ("h2", .str "d")]]⟩] := by
  refine ⟨?_, ?_, ?_, ?_, by decide⟩
  · intro st line h1 h2
    simp [ttStep, h1, h2]
  · intro st line h1 h2 h3
    have h1' : ¬(2 ≤ (rowCells line).length) := by omega
    simp [ttStep, h1', h2, h3]
  · intro st line h1 h2 h3
    have h1' : ¬(2 ≤ (rowCells line).length) := by omega
    have h3' : ¬(st.inTable = true ∧ 2 ≤ st.tableData.length) := by
      intro hcon
      omega
    simp only [ttStep]
    rw [if_neg h1', if_neg h3']
  · intro text h
    simp only [extractTablesFromText]
    rw [if_neg]
    intro hcon
    omega

/-- Witness for C6 amended: a pending 1-row block survives a non-candidate
line unchanged. -/
theorem c6_text_block_amended_witness :
    ttStep ⟨[], [["a", "b"]], true⟩ "x" = ⟨[], [["a", "b"]], true⟩ :=
  c6_text_block_amended.2.2.1 ⟨[], [["a", "b"]], true⟩ "x" (by decide) (by decide) (by decide)

/-- The decimal digit characters produced by `Nat.digitChar`. -/
theorem digitChar_code {m : Nat} (h : m < 10) :
    48 ≤ (Nat.digitChar m).toNat ∧ (Nat.digitChar m).toNat ≤ 57 := by
  interval_cases m <;> decide

/-- Every character `Nat.toDigitsCore` adds in base 10 is a decimal digit. -/
theorem toDigitsCore_code (fuel : Nat) :
    ∀ (n : Nat) (acc : List Char),
      (∀ c ∈ acc, 48 ≤ c.toNat ∧ c.toNat ≤ 57) →
      ∀ c ∈ Nat.toDigitsCore 10 fuel n acc, 48 ≤ c.toNat ∧ c.toNat ≤ 57 := by
  induction fuel with
  | zero => intro n acc hacc c hc; exact hacc c hc
  | succ f ih =>
    intro n acc hacc c hc
    simp only [Nat.toDigitsCore] at hc
    split at hc
    · rcases List.mem_cons.mp hc with h1 | h1
      · rw [h1]; exact digitChar_code (Nat.mod_lt _ (by omega))
      · exact hacc c h1
    · refine ih (n / 10) (Nat.digitChar (n % 10) :: acc) ?_ c hc
      intro c2 hc2
      rcases List.mem_cons.mp hc2 with h1 | h1
      · rw [h1]; exact digitChar_code (Nat.mod_lt _ (by omega))
      · exact hacc c2 h1

/-- Every character of a printed natural number is a decimal digit. -/
theorem repr_code (n : Nat) : ∀ c ∈ (Nat.repr n).toList, 48 ≤ c.toNat ∧ c.toNat ≤ 57 := by
  intro c hc
  have he : (Nat.repr n).toList = Nat.toDigitsCore 10 (n + 1) n [] := rfl
  rw [he] at hc
  exact toDigitsCore_code (n + 1) n [] (by simp) c hc

/-- Characters surviving `wsCollapseAux` are the inserted underscore or
characters of the input. -/
theorem wsCollapseAux_mem {c : Char} : ∀ (b : Bool) (l : List Char),
    c ∈ wsCollapseAux b l → c = '_' ∨ c ∈ l := by
  intro b l
  induction l generalizing b with
  | nil => simp [wsCollapseAux]
  | cons a t ih =>
    simp only [wsCollapseAux]
    split
    · split
      · intro h
        rcases ih true h with h1 | h1
        · exact Or.inl h1
        · exact Or.inr (List.mem_cons_of_mem _ h1)
      · intro h
        rcases List.mem_cons.mp h with h1 | h1
        · exact Or.inl h1
        · rcases ih true h1 with h2 | h2
          · exact Or.inl h2
          · exact Or.inr (List.mem_cons_of_mem _ h2)
    · intro h
      rcases List.mem_cons.mp h with h1 | h1
      · exact Or.inr (h1 ▸ List.mem_cons_self a t)
      · rcases ih false h1 with h2 | h2
        · exact Or.inl h2
        · exact Or.inr (List.mem_cons_of_mem _ h2)

/-- `wsCollapseAux` output contains no whitespace. -/
theorem wsCollapseAux_no_ws {c : Char} : ∀ (b : Bool) (l : List Char),
    c ∈ wsCollapseAux b l → isJsWS c = false := by
  intro b l
  induction l generalizing b with
  | nil => simp [wsCollapseAux]
  | cons a t ih =>
    simp only [wsCollapseAux]
    split
    · split
      · exact ih true
      · intro h
        rcases List.mem_cons.mp h with h1 | h1
        · rw [h1]; decide
        · exact ih true h1
    · next hne =>
      intro h
      rcases List.mem_cons.mp h with h1 | h1
      · rw [h1]
        simpa using hne
      · exact ih false h1

/-- The code point produced by `Char.toLower`. -/
theorem toLower_toNat (c : Char) :
    (Char.toLower c).toNat =
      if 65 ≤ c.toNat ∧ c.toNat ≤ 90 then c.toNat + 32 else c.toNat := by
  show (if c.toNat ≥ 65 ∧ c.toNat ≤ 90 then Char.ofNat (c.toNat + 32) else c).toNat = _
  by_cases h : 65 ≤ c.toNat ∧ c.toNat ≤ 90
  · have hv : Char.isValidCharNat (c.toNat + 32) := Or.inl (by omega)
    rw [if_pos h, if_pos h]
    simp only [Char.ofNat, dif_pos hv]
    rfl
  · rw [if_neg h, if_neg h]

/-- `Char.toLower` never yields an ASCII upper-case letter. -/
theorem toLower_no_upper (c : Char) : isUpperAscii (Char.toLower c) = false := by
  have h := toLower_toNat c
  simp only [isUpperAscii, Bool.and_eq_false_iff, decide_eq_false_iff_not]
  by_cases hc : 65 ≤ c.toNat ∧ c.toNat ≤ 90
  · rw [if_pos hc] at h
    right; omega
  · rw [if_neg hc] at h
    rcases not_and_or.mp hc with h1 | h1
    · left; omega
    · right; omega

/-- The second component of an `enumFrom`/`enum` entry is a list element. -/
theorem snd_mem_of_mem_enumFrom {α : Type} :
    ∀ (l : List α) (n : Nat) (p : Nat × α), p ∈ l.enumFrom n → p.2 ∈ l := by
  intro l
  induction l with
  | nil => intro n p h; simp [List.enumFrom] at h
  | cons a t ih =>
    intro n p h
    simp only [List.enumFrom] at h
    rcases List.mem_cons.mp h with h1 | h1
    · rw [h1]
      exact List.mem_cons_self a t
    · exact List.mem_cons_of_mem _ (ih (n + 1) p h1)

theorem snd_mem_of_mem_enum {α : Type} {l : List α} {p : Nat × α} (h : p ∈ l.enum) :
    p.2 ∈ l := snd_mem_of_mem_enumFrom l 0 p h

/-- Unstructured-text header normalization satisfies the full invariant. -/
theorem normTextHeader_normalized (h : String) : normalizedName (normTextHeader h) = true := by
  simp only [normalizedName, normTextHeader, List.all_eq_true]
  intro c hc
  exact (List.mem_filter.mp hc).2

/-- The `col_N` fallback names satisfy the full invariant. -/
theorem colFallback_normalized (i : Nat) : normalizedName ("col_" ++ toString i) = true := by
  simp only [normalizedName, List.all_eq_true]
  intro c hc
  have he : ("col_" ++ toString i).toList = "col_".toList ++ (Nat.repr i).toList := rfl
  rw [he] at hc
  rcases List.mem_append.mp hc with h1 | h1
  · have hl : ("col_".toList : List Char) = ['c', 'o', 'l', '_'] := rfl
    rw [hl] at h1
    simp only [List.mem_cons, List.not_mem_nil, or_false] at h1
    rcases h1 with h2 | h2 | h2 | h2 <;> (rw [h2]; decide)
  · have hd := repr_code i c h1
    simp only [isAlnumU, Bool.or_eq_true, Bool.and_eq_true, decide_eq_true_eq]
    omega

/-- Characters coming out of `lowerStr` are `Char.toLower` images. -/
theorem mem_lowerStr {c : Char} {s : String} (h : c ∈ (lowerStr s).toList) :
    ∃ d, c = Char.toLower d := by
  have he : (lowerStr s).toList = s.toList.map Char.toLower := rfl
  rw [he] at h
  rcases List.mem_map.mp h with ⟨d, _, hd⟩
  exact ⟨d, hd.symm⟩

/-- CSV header normalization: no upper-case ASCII, no whitespace, no
double quote. -/
theorem normCsvHeader_ok (h : String) :
    (normCsvHeader h).toList.all
      (fun ch => !(isUpperAscii ch) && !(isJsWS ch) && !(ch = '"')) = true := by
  simp only [normCsvHeader, List.all_eq_true]
  intro c hc
  have h1 := List.mem_filter.mp hc
  have hws := wsCollapseAux_no_ws _ _ h1.1
  have hup : isUpperAscii c = false := by
    rcases wsCollapseAux_mem _ _ h1.1 with h2 | h2
    · rw [h2]; decide
    · rcases mem_lowerStr h2 with ⟨d, hd⟩
      rw [hd]; exact toLower_no_upper d
  simp [hws, hup, h1.2]

/-- Spreadsheet header normalization: no upper-case ASCII, no whitespace. -/
theorem normExcelHeader_ok (v : JSVal) :
    (normExcelHeader v).toList.all (fun ch => !(isUpperAscii ch) && !(isJsWS ch)) = true := by
  simp only [normExcelHeader, List.all_eq_true]
  intro c hc
  have hws := wsCollapseAux_no_ws _ _ hc
  have hup : isUpperAscii c = false := by
    rcases wsCollapseAux_mem _ _ hc with h2 | h2
    · rw [h2]; decide
    · rcases mem_lowerStr h2 with ⟨d, hd⟩
      rw [hd]; exact toLower_no_upper d
  simp [hws, hup]

/-- Every column name `createTableFromData` emits satisfies the full
invariant (normalized header or `col_N` fallback). -/
theorem createTableFromData_names {data : List (List String)} {idx : Nat} {t : ExtractedTable}
    (h : createTableFromData data idx = some t) :
    ∀ col ∈ t.columns, normalizedName col.name = true := by
  unfold createTableFromData at h
  cases data with
  | nil => simp at h
  | cons r0 rest =>
    cases rest with
    | nil => simp at h
    | cons r1 rest2 =>
      simp only [Option.some.injEq] at h
      intro col hcol
      rw [← h] at hcol
      simp only at hcol
      rcases List.mem_map.mp hcol with ⟨p, hp, hcf⟩
      rw [← hcf]
      simp only
      split
      · exact colFallback_normalized p.1
      · have hmem : p.2 ∈ (r0.map normTextHeader) := snd_mem_of_mem_enum hp
        rcases List.mem_map.mp hmem with ⟨horig, _, hh⟩
        rw [← hh]
        exact normTextHeader_normalized horig

/-- Tables appearing after one `ttStep` either were there already or are a
`createTableFromData` output. -/
theorem ttStep_tables_src (st : TTState) (line : String) :
    ∀ t ∈ (ttStep st line).tables,
      t ∈ st.tables ∨ ∃ d i, createTableFromData d i = some t := by
  simp only [ttStep]
  split
  · intro t ht
    exact Or.inl ht
  · split
    · intro t ht
      simp only at ht
      rcases List.mem_append.mp ht with h1 | h1
      · exact Or.inl h1
      · right
        cases hcd : createTableFromData st.tableData st.tables.length with
        | none => rw [hcd] at h1; simp at h1
        | some t2 =>
          rw [hcd] at h1
          simp only [Option.toList_some, List.mem_singleton] at h1
          exact ⟨_, _, h1 ▸ hcd⟩
    · intro t ht
      exact Or.inl ht

/-- Invariant of the line loop: every accumulated table is a
`createTableFromData` output. -/
theorem foldl_tables_src (lines : List String) (st : TTState)
    (hst : ∀ t ∈ st.tables, ∃ d i, createTableFromData d i = some t) :
    ∀ t ∈ (lines.foldl ttStep st).tables, ∃ d i, createTableFromData d i = some t := by
  induction lines generalizing st with
  | nil => exact hst
  | cons a rest ih =>
    simp only [List.foldl_cons]
    apply ih
    intro t ht
    rcases ttStep_tables_src st a t ht with h1 | h1
    · exact hst t h1
    · exact h1

/-- Every table the unstructured-text extractor emits is a
`createTableFromData` output. -/
theorem extractTablesFromText_src (text : String) :
    ∀ t ∈ extractTablesFromText text, ∃ d i, createTableFromData d i = some t := by
  intro t ht
  simp only [extractTablesFromText] at ht
  split at ht
  · rcases List.mem_append.mp ht with h1 | h1
    · exact foldl_tables_src _ _ (by simp) t h1
    · cases hcd : createTableFromData (ttFold text).tableData (ttFold text).tables.length with
      | none => rw [hcd] at h1; simp at h1
      | some t2 =>
        rw [hcd] at h1
        simp only [Option.toList_some, List.mem_singleton] at h1
        exact ⟨_, _, h1 ▸ hcd⟩
  · exact foldl_tables_src _ _ (by simp) t ht

/-- Column names of a spreadsheet table are whitespace-free and contain no
ASCII upper-case letter. -/
theorem excelSheetTable_names {sn : String} {jd : List (List JSVal)} {t : ExtractedTable}
    (h : excelSheetTable sn jd = some t) :
    ∀ col ∈ t.columns,
      col.name.toList.all (fun ch => !(isUpperAscii ch) && !(isJsWS ch)) = true := by
  unfold excelSheetTable at h
  cases jd with
  | nil => simp at h
  | cons r0 rest =>
    cases rest with
    | nil => simp at h
    | cons r1 rest2 =>
      simp only [Option.some.injEq] at h
      intro col hcol
      rw [← h] at hcol
      simp only at hcol
      rcases List.mem_map.mp hcol with ⟨p, hp, hcf⟩
      rw [← hcf]
      simp only
      have hmem : p.2 ∈ (r0.map normExcelHeader) := snd_mem_of_mem_enum hp
      rcases List.mem_map.mp hmem with ⟨horig, _, hh⟩
      rw [← hh]
      exact normExcelHeader_ok horig

/-- C7 counterexample: the CSV extractor keeps the hyphen of a header
"e-mail" — its column names are not stripped of non-alphanumerics, refuting
the claimed invariant for every extractor. -/
theorem c7_normalization_counterexample :
    (extractFromCSV "e-mail,id\n1,2").tables.map
      (fun t => match t with
        | .typed tt => tt.columns.map Column.name
        | .fromImage _ => []) = [["e-mail", "id"]]
    ∧ normalizedName "e-mail" = false := by
  exact ⟨by decide, by decide⟩

/-- C7 amended: only the unstructured-text extractor's column names satisfy
the full invariant (lower-cased, whitespace → underscore, all other
non-alphanumerics stripped, or the `col_N` fallback); CSV column names are
lower-cased, whitespace-collapsed and double-quote-free, and spreadsheet
column names are lower-cased and whitespace-collapsed — both may retain
other non-alphanumeric characters. -/
theorem c7_name_normalization_amended :
    (∀ data idx t, createTableFromData data idx = some t →
      ∀ col ∈ t.columns, normalizedName col.name = true)
    ∧ (∀ text t, t ∈ extractTablesFromText text →
        ∀ col ∈ t.columns, normalizedName col.name = true)
    ∧ (∀ content t, AnyTable.typed t ∈ (extractFromCSV content).tables →
        ∀ col ∈ t.columns,
          col.name.toList.all
            (fun ch => !(isUpperAscii ch) && !(isJsWS ch) && !(ch = '"')) = true)
    ∧ (∀ sheets t, AnyTable.typed t ∈ (extractFromExcel sheets).tables →
        ∀ col ∈ t.columns,
          col.name.toList.all (fun ch => !(isUpperAscii ch) && !(isJsWS ch)) = true) := by
  refine ⟨fun data idx t h => createTableFromData_names h, ?_, ?_, ?_⟩
  · intro text t ht
    rcases extractTablesFromText_src text t ht with ⟨d, i, hdi⟩
    exact createTableFromData_names hdi
  · intro content t h
    rcases hc : csvLines content with _ | ⟨a, _ | ⟨b, l⟩⟩ <;>
      simp only [extractFromCSV, hc] at h
    · simp at h
    · simp at h
    · simp only [List.mem_singleton] at h
      injection h.symm with h2
      intro col hcol
      rw [← h2] at hcol
      simp only at hcol
      rcases List.mem_map.mp hcol with ⟨p, hp, hcf⟩
      rw [← hcf]
      simp only
      have hmem : p.2 ∈ ((splitStr ',' a).map normCsvHeader) := snd_mem_of_mem_enum hp
      rcases List.mem_map.mp hmem with ⟨horig, _, hh⟩
      rw [← hh]
      exact normCsvHeader_ok horig
  · intro sheets t h
    simp only [extractFromExcel] at h
    rcases List.mem_map.mp h with ⟨t2, ht2, heq⟩
    injection heq with h2
    rcases List.mem_filterMap.mp ht2 with ⟨s, _, hfs⟩
    rw [← h2]
    exact excelSheetTable_names hfs

/-- Witness for C7 amended at a concrete extracted table. -/
theorem c7_name_normalization_amended_witness : normalizedName "a" = true :=
  c7_name_normalization_amended.1 [["a"], ["b"]] 0
    ⟨"pdf_table_1", [⟨"a", "text"⟩], [[("a", JSVal.str "b")]]⟩ (by decide)
    ⟨"a", "text"⟩ (by decide)

/-- C8 counterexample: on a reply with a `\x7d` in trailing prose, the code's
greedy regex captures from the first `\x7b` to the LAST `\x7d`, the parse of
that over-captured span fails and the code returns `{tables: []}` — whereas
the claimed first-balanced-object behaviour parses one table. -/
theorem c8_greedy_json_counterexample :
    extractFromImage true "ok \x7b\"tables\": [\x7b\"name\": \"t\"\x7d]\x7d done\x7d" =
      ⟨[], none⟩
    ∧ (specFirstBalancedJsonSpan "ok \x7b\"tables\": [\x7b\"name\": \"t\"\x7d]\x7d done\x7d").bind
        parseJson = some (.obj [("tables", .arr [.obj [("name", .str "t")]])])
    ∧ jsTablesOf (.obj [("tables", .arr [.obj [("name", .str "t")]])]) =
        [.obj [("name", .str "t")]] := by
  exact ⟨rfl, rfl, rfl⟩

/-- C8 amended: without a credential the extractor short-circuits to the
fixed reason, independently of the oracle reply; otherwise it captures the
greedy span from the first `\x7b` to the last `\x7d` of the reply (not the
first balanced object), parses that span, normalizes `parsed.tables || []`,
and returns `{tables: []}` when no such span exists or the parse fails. -/
theorem c8_image_extraction_amended :
    (∀ reply, extractFromImage false reply =
      ⟨[], some "Gemini API key not configured for image processing"⟩)
    ∧ (∀ reply, jsonGreedyMatch reply = none → extractFromImage true reply = ⟨[], none⟩)
    ∧ (∀ reply span, jsonGreedyMatch reply = some span → parseJson span = none →
        extractFromImage true reply = ⟨[], none⟩)
    ∧ (∀ reply span v, jsonGreedyMatch reply = some span → parseJson span = some v →
        extractFromImage true reply =
          ⟨(jsTablesOf v).map .fromImage, some "Extracted from image using AI"⟩)
    ∧ jsonGreedyMatch "ok \x7b\"a\": 1\x7d tail\x7d" = some "\x7b\"a\": 1\x7d tail\x7d" := by
  refine ⟨fun reply => rfl, ?_, ?_, ?_, rfl⟩
  · intro reply h
    simp only [extractFromImage, Bool.not_true, Bool.false_eq_true, if_false]
    rw [h]
  · intro reply span h1 h2
    simp only [extractFromImage, Bool.not_true, Bool.false_eq_true, if_false, h1, h2]
  · intro reply span v h1 h2
    simp only [extractFromImage, Bool.not_true, Bool.false_eq_true, if_false, h1, h2]

/-- Witness for C8 amended at a concrete clean reply. -/
theorem c8_image_extraction_amended_witness :
    extractFromImage true "\x7b\"tables\": []\x7d" =
      ⟨[], some "Extracted from image using AI"⟩ :=
  c8_image_extraction_amended.2.2.2.1 "\x7b\"tables\": []\x7d" "\x7b\"tables\": []\x7d"
    (.obj [("tables", .arr [])]) rfl rfl

/-- C9: for `show_table` with an execution result whose table is present,
`format` renders the fixed pipe-table — title line, header row joined by
" | ", a separator of "-" runs joined by "-+-", one line per row with
missing cells rendered as the empty string, or "(no rows)" for zero rows —
and any action with no per-action template falls back to the generic
completion message. -/
theorem c9_show_table_rendering :
    (∀ d res t, res.table = some t →
      generateChatResponse "show_table" d (some res) =
        if (res.rows.getD []).isEmpty then
          "📋 TABLE: " ++ t.name ++ "\n\n"
            ++ String.intercalate " | " (t.columns.map ResCol.name) ++ "\n"
            ++ String.intercalate "-+-" (t.columns.map (fun _ => "---")) ++ "\n"
            ++ "(no rows)"
        else
          "📋 TABLE: " ++ t.name ++ "\n\n"
            ++ String.intercalate " | " (t.columns.map ResCol.name) ++ "\n"
            ++ String.intercalate "-+-" (t.columns.map (fun _ => "---")) ++ "\n"
            ++ String.intercalate "\n" ((res.rows.getD []).map (fun row =>
                String.intercalate " | " (t.columns.map (fun c => cellString row c.name)))))
    ∧ (∀ row colName, ResRow.data row = none → cellString row colName = "")
    ∧ (∀ row d colName, ResRow.data row = some d → d.lookup colName = none →
        cellString row colName = "")
    ∧ (∀ a d, (responsesMap d).lookup a = none →
        generateChatResponse a d none = fallbackResponse d)
    ∧ (∀ a d res, a ≠ "show_table" → (responsesMap d).lookup a = none →
        generateChatResponse a d (some res) = fallbackResponse d)
    ∧ generateChatResponse "unknown_action" ⟨none, none, none, none, none⟩ none =
        "Done: operation complete" := by
  refine ⟨?_, ?_, ?_, ?_, ?_, by decide⟩
  · intro d res t h
    simp only [generateChatResponse, showTableBody, h]
    rfl
  · intro row colName h
    simp [cellString, h, renderCell]
  · intro row d colName h1 h2
    simp [cellString, h1, h2, renderCell]
  · intro a d h
    simp [generateChatResponse, lookupResponse, h]
  · intro a d res h1 h2
    have hb : (a == "show_table") = false := beq_eq_false_iff_ne.mpr h1
    simp [generateChatResponse, lookupResponse, hb, h2]

/-- Witness for C9 at a concrete result. -/
theorem c9_show_table_rendering_witness :
    generateChatResponse "show_table" ⟨none, none, none, none, none⟩
      (some ⟨some ⟨"t", [⟨"n"⟩]⟩, some []⟩) =
      "📋 TABLE: t\n\nn\n---\n(no rows)" := by
  have h := c9_show_table_rendering.1 ⟨none, none, none, none, none⟩
    ⟨some ⟨"t", [⟨"n"⟩]⟩, some []⟩ ⟨"t", [⟨"n"⟩]⟩ rfl
  rw [h]
  decide

/-- C10: every falsy stored cell value (0, "", false, null) renders as the
empty string, exactly like a missing cell, so a stored zero is
indistinguishable in the rendered output from an absent cell. -/
theorem c10_falsy_cells_indistinguishable :
    (∀ v, jsFalsy v = true → renderCell (some v) = "" ∧ renderCell none = "")
    ∧ (∀ t d rows1 rows2,
        List.Forall₂ (fun r1 r2 => ∀ s, cellString r1 s = cellString r2 s) rows1 rows2 →
        generateChatResponse "show_table" d (some ⟨some t, some rows1⟩) =
          generateChatResponse "show_table" d (some ⟨some t, some rows2⟩))
    ∧ cellString ⟨some [("n", .num 0)]⟩ "n" = cellString ⟨some []⟩ "n"
    ∧ generateChatResponse "show_table" ⟨none, none, none, none, none⟩
        (some ⟨some ⟨"t", [⟨"n"⟩]⟩, some [⟨some [("n", .num 0)]⟩]⟩) =
      generateChatResponse "show_table" ⟨none, none, none, none, none⟩
        (some ⟨some ⟨"t", [⟨"n"⟩]⟩, some [⟨some []⟩]⟩) := by
  refine ⟨?_, ?_, by decide, by decide⟩
  · intro v h
    exact ⟨by simp [renderCell, h], rfl⟩
  · intro t d rows1 rows2 hf
    have hmap : rows1.map (fun row =>
          String.intercalate " | " (t.columns.map (fun c => cellString row c.name)))
        = rows2.map (fun row =>
          String.intercalate " | " (t.columns.map (fun c => cellString row c.name))) := by
      induction hf with
      | nil => rfl
      | cons h1 _ ih =>
        simp only [List.map_cons, ih]
        congr 1
        congr 1
        exact List.map_congr_left (fun c _ => h1 c.name)
    have hlen : rows1.length = rows2.length := List.Forall₂.length_eq hf
    simp only [generateChatResponse, showTableBody]
    simp only [Option.getD_some]
    rw [hmap]
    rcases rows1 with _ | ⟨r1, rest1⟩ <;> rcases rows2 with _ | ⟨r2, rest2⟩
    · rfl
    · simp at hlen
    · simp at hlen
    · rfl

/-- Witness for C10 at the stored zero. -/
theorem c10_falsy_cells_indistinguishable_witness :
    renderCell (some (.num 0)) = "" ∧ renderCell none = "" :=
  c10_falsy_cells_indistinguishable.1 (.num 0) (by decide)
